import Mathlib

/-!
Verification of the media-attachment pipeline and note-saving logic of the
note-taking app (source: src/pages/EntryEditScreen.tsx).

The embedding models the three handlers of the entry edit screen —
`pickMedia`, `removeMedia` and `saveEntry` — as pure functions from the
screen state and an environment (the responses of the external
collaborators: permission system, asset picker, object store, record
store) to an outcome recording the final state, the collaborator calls
issued, and the user-facing notices raised.
-/

namespace EntryEdit

/-- JavaScript-style single-character split: `splitOnChar c l` splits the
character list `l` at every occurrence of `c`, mirroring
`String.prototype.split` with a one-character separator.  It always
returns a non-empty list; the empty input yields `[[]]`. -/
def splitOnChar (c : Char) : List Char → List (List Char)
  | [] => [[]]
  | x :: xs =>
    let r := splitOnChar c xs
    if x = c then [] :: r
    else
      match r with
      | [] => [[x]]
      | h :: t => (x :: h) :: t

/-- Model of `fileName.split(".").pop()` from the source: the last
dot-separated segment of a string. -/
def jsSplitPop (f : String) : String :=
  String.mk ((splitOnChar '.' f.data).getLastD [])

/-- Model of JavaScript `String.prototype.trim`: strips leading and
trailing whitespace characters. -/
def jsTrim (s : String) : String :=
  String.mk (((s.data.dropWhile Char.isWhitespace).reverse.dropWhile Char.isWhitespace).reverse)

/-- A picked media asset, as returned by the image picker
(`result.assets[0]` in the source): an optional original filename, a
declared kind (the source compares `asset.type` against `"video"`), an
optional declared MIME type, and the base64 payload. -/
structure Asset where
  fileName : Option String
  type : String
  mimeType : Option String
  base64 : String
deriving DecidableEq, Repr

/-- Extension resolution from the source
(`asset.fileName?.split(".").pop() || (asset.type === "video" ? "mp4" : "png")`):
the last dot-separated segment of the filename when the filename is
present and that segment is non-empty (JavaScript `||` treats the empty
string as falsy), else the kind-based fallback. -/
def fileExt (a : Asset) : String :=
  match a.fileName with
  | none => if a.type = "video" then ("mp4") else ("png")
  | some f =>
    let e := jsSplitPop f
    if e = "" then (if a.type = "video" then ("mp4") else ("png")) else e

/-- MIME resolution from the source
(`asset.mimeType || (asset.type === "video" ? "video/mp4" : "image/png")`). -/
def resolveMime (a : Asset) : String :=
  match a.mimeType with
  | none => if a.type = "video" then ("video/mp4") else ("image/png")
  | some m =>
    if m = "" then (if a.type = "video" then ("video/mp4") else ("image/png")) else m

/-- Storage key derivation from the source:
`` `${userId}_${Date.now()}.${fileExt}` ``.  The current time is passed
in explicitly as a natural number. -/
def storageFileName (userId : String) (now : Nat) (a : Asset) : String :=
  userId ++ "_" ++ toString now ++ "." ++ fileExt a

/-- Full object-store path from the source: `` `entries/${fileName}` ``. -/
def uploadPath (userId : String) (now : Nat) (a : Asset) : String :=
  "entries/" ++ storageFileName userId now a

/-- The mutable state of the entry edit screen (the `useState` variables
`title`, `content`, `media`, `userId`, `loading`). -/
structure EditorState where
  title : String
  content : String
  media : Option String
  userId : Option String
  loading : Bool
deriving DecidableEq, Repr

/-- The payload sent to the record store by `saveEntry`
(`{ id, user_id, title, content, media_url }`). -/
structure EntryPayload where
  id : Option String
  user_id : String
  title : String
  content : String
  media_url : Option String
deriving DecidableEq, Repr

/-- A call to an external collaborator: object-store upload
(`supabase.storage.from("galeria").upload`), object-store public-URL
lookup (`getPublicUrl`), object-store delete (never issued by this
screen, present so its absence can be stated), and record-store upsert
(`supabase.from("entries").upsert`). -/
inductive StoreCall where
  | upload (path : String) (payload : String) (contentType : String) (upsert : Bool)
  | getPublicUrl (path : String)
  | deleteObject (path : String)
  | recordUpsert (payload : EntryPayload)
deriving DecidableEq, Repr

/-- Environment for one `pickMedia` invocation: the permission result,
the picker result (`none` when the user cancelled), the current time,
the object store's response to the upload (`some msg` is an error with
message `msg`), and the public URL the store reports for the key. -/
structure PickEnv where
  granted : Bool
  result : Option Asset
  now : Nat
  uploadError : Option String
  publicUrl : String
deriving Repr

/-- Outcome of a handler invocation: final screen state, collaborator
calls issued in order, and `Alert.alert` notices raised (title,
message). -/
structure Outcome where
  state : EditorState
  calls : List StoreCall
  notices : List (String × String)
deriving DecidableEq, Repr

/-- The `pickMedia` handler (source lines 39–100).  Permission denial
raises a notice and stops; a cancelled pick or an unresolved user id
skips the whole upload block silently; otherwise the asset is uploaded
under the derived key, an upload error raises the store's message
verbatim and stops before the public-URL lookup, and on success the
public URL is stored into `media`. -/
def pickMedia (s : EditorState) (env : PickEnv) : Outcome :=
  if !env.granted then
    { state := s
      calls := []
      notices := [(("Permissão necessária"), ("Precisamos de acesso à sua galeria para adicionar mídia."))] }
  else
    match env.result, s.userId with
    | some a, some uid =>
      let path := uploadPath uid env.now a
      let up := StoreCall.upload path a.base64 (resolveMime a) true
      match env.uploadError with
      | some msg =>
        { state := { s with loading := false }
          calls := [up]
          notices := [(("Erro"), msg)] }
      | none =>
        { state := { s with media := some env.publicUrl, loading := false }
          calls := [up, StoreCall.getPublicUrl path]
          notices := [] }
    | _, _ => { state := s, calls := [], notices := [] }

/-- The `removeMedia` handler (source lines 104–106): clears the local
media reference and nothing else. -/
def removeMedia (s : EditorState) : Outcome :=
  { state := { s with media := none }, calls := [], notices := [] }

/-- Environment for one `saveEntry` invocation: the record store's
response to the upsert (`some msg` is an error). -/
structure SaveEnv where
  upsertError : Option String
deriving Repr

/-- Outcome of `saveEntry`: an `Outcome` plus whether the screen
navigated back (success path). -/
structure SaveOutcome where
  state : EditorState
  calls : List StoreCall
  notices : List (String × String)
  navigatedBack : Bool
deriving DecidableEq, Repr

/-- The `saveEntry` handler (source lines 109–150).  `editingId` is
`route.params?.entry?.id`.  An unresolved user id raises an
authentication notice and stops; a draft whose trimmed title and
trimmed content are both empty raises a validation notice and stops;
otherwise the trimmed payload is upserted, an upsert error raises the
store's message, and success navigates back. -/
def saveEntry (editingId : Option String) (s : EditorState) (env : SaveEnv) : SaveOutcome :=
  match s.userId with
  | none =>
    { state := s
      calls := []
      notices := [(("Erro"), ("Usuário não identificado"))]
      navigatedBack := false }
  | some uid =>
    if jsTrim s.title = "" ∧ jsTrim s.content = "" then
      { state := s
        calls := []
        notices := [(("Aviso"), ("Adicione um título ou conteúdo para salvar"))]
        navigatedBack := false }
    else
      let payload : EntryPayload :=
        { id := editingId
          user_id := uid
          title := jsTrim s.title
          content := jsTrim s.content
          media_url := s.media }
      match env.upsertError with
      | some msg =>
        { state := { s with loading := false }
          calls := [StoreCall.recordUpsert payload]
          notices := [(("Erro"), msg)]
          navigatedBack := false }
      | none =>
        { state := { s with loading := false }
          calls := [StoreCall.recordUpsert payload]
          notices := []
          navigatedBack := true }

end EntryEdit

namespace EntryEdit

/-- `splitOnChar` never returns the empty list. -/
lemma splitOnChar_ne_nil (c : Char) (l : List Char) : splitOnChar c l ≠ [] := by
  cases l with
  | nil => simp [splitOnChar]
  | cons x xs =>
    simp only [splitOnChar]
    by_cases hx : x = c
    · simp [hx]
    · simp only [if_neg hx]
      cases splitOnChar c xs <;> simp

/-- Splitting a list that does not contain the separator yields the
singleton list of the whole input. -/
lemma splitOnChar_not_mem {c : Char} {l : List Char} (h : c ∉ l) :
    splitOnChar c l = [l] := by
  induction l with
  | nil => rfl
  | cons x xs ih =>
    have hx : ¬(x = c) := fun hxc => h (by rw [← hxc]; exact List.mem_cons_self x xs)
    have hxs : c ∉ xs := fun hm => h (List.mem_cons_of_mem _ hm)
    simp only [splitOnChar, if_neg hx, ih hxs]

/-- Splitting a list that does contain the separator yields at least two
segments. -/
lemma two_le_length_splitOnChar {c : Char} {l : List Char} (h : c ∈ l) :
    2 ≤ (splitOnChar c l).length := by
  induction l with
  | nil => cases h
  | cons x xs ih =>
    by_cases hx : x = c
    · simp only [splitOnChar, if_pos hx, List.length_cons]
      have hne := splitOnChar_ne_nil c xs
      have h1 : 1 ≤ (splitOnChar c xs).length := by
        cases hr : splitOnChar c xs with
        | nil => exact absurd hr hne
        | cons a t => simp
      omega
    · have hxs : c ∈ xs := by
        rcases List.mem_cons.mp h with h' | h'
        · exact absurd h'.symm hx
        · exact h'
      have h2 := ih hxs
      simp only [splitOnChar, if_neg hx]
      cases hr : splitOnChar c xs with
      | nil => exact absurd hr (splitOnChar_ne_nil c xs)
      | cons hd tl =>
        rw [hr] at h2
        simpa using h2

/-- The last segment of a split is determined by the part after the last
separator occurrence: splitting `l1 ++ c :: l2` has the same last
segment as splitting `l2`. -/
lemma getLastD_splitOnChar_append (c : Char) (l1 l2 : List Char) :
    (splitOnChar c (l1 ++ c :: l2)).getLastD [] = (splitOnChar c l2).getLastD [] := by
  induction l1 with
  | nil =>
    have hstep : splitOnChar c (c :: l2) = [] :: splitOnChar c l2 := by
      simp [splitOnChar]
    rw [List.nil_append, hstep, List.getLastD_cons]
  | cons x xs ih =>
    by_cases hx : x = c
    · simp only [List.cons_append, splitOnChar, if_pos hx, List.getLastD_cons]
      exact ih
    · simp only [List.cons_append, splitOnChar, if_neg hx]
      cases hr : splitOnChar c (xs ++ c :: l2) with
      | nil => exact absurd hr (splitOnChar_ne_nil _ _)
      | cons hd tl =>
        have h2 : 2 ≤ (hd :: tl).length := by
          rw [← hr]
          exact two_le_length_splitOnChar (by simp)
        cases tl with
        | nil => simp at h2
        | cons t1 ts =>
          rw [hr] at ih
          simp only [List.getLastD_cons] at ih ⊢
          exact ih

/-- `fileName.split(".").pop()` returns the part after the last dot when
that part itself contains no dot. -/
lemma jsSplitPop_suffix (stem e : String) (hdot : ('.') ∉ e.data) :
    jsSplitPop (stem ++ "." ++ e) = e := by
  unfold jsSplitPop
  have hdotstr : ((".") : String).data = ['.'] := rfl
  have hdata : (stem ++ "." ++ e).data = stem.data ++ '.' :: e.data := by
    rw [String.data_append, String.data_append, hdotstr, List.append_assoc]
    rfl
  rw [hdata, getLastD_splitOnChar_append, splitOnChar_not_mem hdot]
  rfl

/-- A string that does not contain the dot character pops to itself. -/
lemma jsSplitPop_no_dot {f : String} (hdot : ('.') ∉ f.data) :
    jsSplitPop f = f := by
  unfold jsSplitPop
  rw [splitOnChar_not_mem hdot]
  rfl

/-- Right-cancellation for string concatenation. -/
lemma str_append_right_cancel {a b c : String} (h : a ++ c = b ++ c) : a = b := by
  apply String.ext
  have hd := congrArg String.data h
  rw [String.data_append, String.data_append] at hd
  exact List.append_cancel_right hd

end EntryEdit

namespace EntryEdit

/-- Claim C1: for owner ids `o1 ≠ o2`, the same capture timestamp and the
same picked asset, the derived storage keys `<ownerId>_<timestamp>.<ext>`
differ — key derivation is injective in the owner id. -/
theorem storageFileName_injective_in_owner (o1 o2 : String) (t : Nat) (a : Asset)
    (h : o1 ≠ o2) : storageFileName o1 t a ≠ storageFileName o2 t a := by
  intro he
  apply h
  unfold storageFileName at he
  first
    | exact str_append_right_cancel he
    | exact str_append_right_cancel
        (str_append_right_cancel (str_append_right_cancel (str_append_right_cancel he)))

/-- Claim C1 witness: two concrete owners at the same instant get
different keys. -/
theorem storageFileName_injective_in_owner_witness :
    storageFileName ("alice") 1700000000000 ⟨none, ("image"), none, ("")⟩ ≠
      storageFileName ("bob") 1700000000000 ⟨none, ("image"), none, ("")⟩ :=
  storageFileName_injective_in_owner ("alice") ("bob") 1700000000000
    ⟨none, ("image"), none, ("")⟩ (by decide)

/-- Claim C2 counterexample: with both fields blank but no resolved
identity, the save is aborted with the authentication notice, not the
validation notice — so the claim as stated (every blank save surfaces a
validation notice) fails on the code. -/
theorem saveEntry_blank_claim_counterexample :
    jsTrim ("") = "" ∧
    ((("Aviso"), ("Adicione um título ou conteúdo para salvar")) ∉
      (saveEntry none ⟨("") , ("") , none, none, false⟩ ⟨none⟩).notices) ∧
    (saveEntry none ⟨("") , ("") , none, none, false⟩ ⟨none⟩).notices =
      [(("Erro"), ("Usuário não identificado"))] := by
  decide

/-- Claim C2 (amended): for every save attempt with a resolved identity
in which both the trimmed title and the trimmed body are blank, no
record-store call is issued and the validation notice is surfaced. -/
theorem saveEntry_blank_rejected (eid : Option String) (s : EditorState) (env : SaveEnv)
    (uid : String) (hu : s.userId = some uid)
    (ht : jsTrim s.title = "") (hc : jsTrim s.content = "") :
    (saveEntry eid s env).calls = [] ∧
    (saveEntry eid s env).notices =
      [(("Aviso"), ("Adicione um título ou conteúdo para salvar"))] := by
  simp only [saveEntry, hu]
  rw [if_pos ⟨ht, hc⟩]
  refine ⟨?_, ?_⟩ <;> trivial

/-- Claim C2 witness: a concrete blank draft with a resolved identity is
rejected with the validation notice and no calls. -/
theorem saveEntry_blank_rejected_witness :
    (saveEntry none ⟨("") , ("  ") , none, some ("u1"), false⟩ ⟨none⟩).calls = [] ∧
    (saveEntry none ⟨("") , ("  ") , none, some ("u1"), false⟩ ⟨none⟩).notices =
      [(("Aviso"), ("Adicione um título ou conteúdo para salvar"))] :=
  saveEntry_blank_rejected none _ _ ("u1") rfl (by decide) (by decide)

/-- Claim C3: when the object store rejects the upload, the pipeline
aborts — the draft's media reference keeps its pre-attempt value, no
public-URL lookup and no record upsert are issued in the attempt, the
store's message is surfaced verbatim, and exactly one upload call (no
retry) was made. -/
theorem pickMedia_upload_error_aborts (s : EditorState) (env : PickEnv) (a : Asset)
    (uid msg : String) (hg : env.granted = true) (ha : env.result = some a)
    (hu : s.userId = some uid) (he : env.uploadError = some msg) :
    (pickMedia s env).state.media = s.media ∧
    (pickMedia s env).calls =
      [StoreCall.upload (uploadPath uid env.now a) a.base64 (resolveMime a) true] ∧
    (∀ p, StoreCall.getPublicUrl p ∉ (pickMedia s env).calls) ∧
    (∀ pl, StoreCall.recordUpsert pl ∉ (pickMedia s env).calls) ∧
    (pickMedia s env).notices = [(("Erro"), msg)] := by
  simp [pickMedia, hg, ha, hu, he]

/-- Claim C3 witness: a concrete failing upload leaves the old media
reference, issues only the upload call, and surfaces the store's
message. -/
theorem pickMedia_upload_error_aborts_witness :
    (pickMedia ⟨("t"), ("c"), some ("old"), some ("u1"), false⟩
        ⟨true, some ⟨some ("v.mov"), ("video"), some ("video/quicktime"), ("payload")⟩,
          99, some ("quota exceeded"), ("unused")⟩).state.media = some ("old") ∧
    (pickMedia ⟨("t"), ("c"), some ("old"), some ("u1"), false⟩
        ⟨true, some ⟨some ("v.mov"), ("video"), some ("video/quicktime"), ("payload")⟩,
          99, some ("quota exceeded"), ("unused")⟩).notices =
      [(("Erro"), ("quota exceeded"))] :=
  ⟨(pickMedia_upload_error_aborts _ _
      ⟨some ("v.mov"), ("video"), some ("video/quicktime"), ("payload")⟩
      ("u1") ("quota exceeded") rfl rfl rfl rfl).1,
   (pickMedia_upload_error_aborts _ _
      ⟨some ("v.mov"), ("video"), some ("video/quicktime"), ("payload")⟩
      ("u1") ("quota exceeded") rfl rfl rfl rfl).2.2.2.2⟩

/-- Claim C4: a save attempt with a non-empty trimmed title but no
resolvable identity issues no record-store call and surfaces the
authentication notice. -/
theorem saveEntry_unauthenticated_rejected (eid : Option String) (s : EditorState)
    (env : SaveEnv) (hu : s.userId = none) (ht : jsTrim s.title ≠ "") :
    (saveEntry eid s env).calls = [] ∧
    (saveEntry eid s env).notices = [(("Erro"), ("Usuário não identificado"))] := by
  simp only [saveEntry, hu]
  refine ⟨?_, ?_⟩ <;> trivial

/-- Claim C4 witness: a concrete titled draft without identity is
rejected with the authentication notice and no calls. -/
theorem saveEntry_unauthenticated_rejected_witness :
    (saveEntry none ⟨("Groceries"), ("") , none, none, false⟩ ⟨none⟩).calls = [] ∧
    (saveEntry none ⟨("Groceries"), ("") , none, none, false⟩ ⟨none⟩).notices =
      [(("Erro"), ("Usuário não identificado"))] :=
  saveEntry_unauthenticated_rejected none _ ⟨none⟩ rfl (by decide)

/-- Claim C5: when the picked asset's filename has a non-empty extension
(a non-empty dot-free suffix after a dot), the derived storage key ends
in exactly that extension, preserved verbatim. -/
theorem storageFileName_preserves_extension (uid : String) (t : Nat) (a : Asset)
    (stem e : String) (hf : a.fileName = some (stem ++ "." ++ e))
    (hdot : ('.') ∉ e.data) (hne : e ≠ "") :
    fileExt a = e ∧
    storageFileName uid t a = uid ++ "_" ++ toString t ++ "." ++ e := by
  have hext : fileExt a = e := by
    simp only [fileExt, hf]
    simp only [jsSplitPop_suffix stem e hdot]
    rw [if_neg hne]
  refine ⟨hext, ?_⟩
  unfold storageFileName
  rw [hext]

/-- Claim C5 witness: the filename `photo.jpg` yields extension `jpg`
and a key ending in `.jpg`. -/
theorem storageFileName_preserves_extension_witness :
    fileExt ⟨some ("photo.jpg"), ("image"), none, ("")⟩ = "jpg" ∧
    storageFileName ("u1") 7 ⟨some ("photo.jpg"), ("image"), none, ("")⟩ =
      ("u1") ++ "_" ++ toString 7 ++ "." ++ ("jpg") :=
  storageFileName_preserves_extension ("u1") 7 _ ("photo") ("jpg") (by decide)
    (by decide) (by decide)

/-- Claim C6: an asset without a filename resolves its extension by kind
(`mp4` for video, `png` otherwise), and an asset without a declared MIME
type resolves its MIME by kind (`video/mp4` for video, `image/png`
otherwise). -/
theorem kind_based_fallbacks (a : Asset) :
    (a.fileName = none → fileExt a = (if a.type = "video" then ("mp4") else ("png"))) ∧
    (a.mimeType = none →
      resolveMime a = (if a.type = "video" then ("video/mp4") else ("image/png"))) := by
  constructor
  · intro hf
    simp only [fileExt, hf]
  · intro hm
    simp only [resolveMime, hm]

/-- Claim C6 witness: a filename-less video asset resolves to `mp4`, and
a MIME-less image asset resolves to `image/png`. -/
theorem kind_based_fallbacks_witness :
    fileExt ⟨none, ("video"), none, ("")⟩ = "mp4" ∧
    resolveMime ⟨none, ("image"), none, ("")⟩ = "image/png" := by
  constructor
  · rw [(kind_based_fallbacks ⟨none, ("video"), none, ("")⟩).1 rfl]
    decide
  · rw [(kind_based_fallbacks ⟨none, ("image"), none, ("")⟩).2 rfl]
    decide

/-- Claim C7: detaching media clears the draft's media reference and
changes nothing else — same title, content, user id and loading flag,
and no collaborator call (in particular no object-store delete) and no
notice. -/
theorem removeMedia_frame (s : EditorState) :
    (removeMedia s).state.media = none ∧
    (removeMedia s).state.title = s.title ∧
    (removeMedia s).state.content = s.content ∧
    (removeMedia s).state.userId = s.userId ∧
    (removeMedia s).state.loading = s.loading ∧
    (removeMedia s).calls = [] ∧
    (removeMedia s).notices = [] :=
  ⟨rfl, rfl, rfl, rfl, rfl, rfl, rfl⟩

/-- Claim C8: with permission granted and an asset picked, but no
resolved user id, the pick pipeline performs no upload, no URL lookup
and no state change, and surfaces no notice — the asset is silently
dropped. -/
theorem pickMedia_missing_user_silent (s : EditorState) (env : PickEnv) (a : Asset)
    (hg : env.granted = true) (ha : env.result = some a) (hu : s.userId = none) :
    (pickMedia s env).state = s ∧ (pickMedia s env).calls = [] ∧
    (pickMedia s env).notices = [] := by
  simp [pickMedia, hg, ha, hu]

/-- Claim C8 witness: a concrete granted, non-cancelled pick without a
resolved user id is a silent no-op. -/
theorem pickMedia_missing_user_silent_witness :
    (pickMedia ⟨("t"), ("c"), none, none, false⟩
        ⟨true, some ⟨none, ("image"), none, ("x")⟩, 1, none, ("url")⟩).state =
      ⟨("t"), ("c"), none, none, false⟩ ∧
    (pickMedia ⟨("t"), ("c"), none, none, false⟩
        ⟨true, some ⟨none, ("image"), none, ("x")⟩, 1, none, ("url")⟩).calls = [] ∧
    (pickMedia ⟨("t"), ("c"), none, none, false⟩
        ⟨true, some ⟨none, ("image"), none, ("x")⟩, 1, none, ("url")⟩).notices = [] :=
  pickMedia_missing_user_silent _ _ ⟨none, ("image"), none, ("x")⟩ rfl rfl rfl

/-- Claim C9: a present, non-empty, dotless filename becomes the
extension whole; the kind-based fallback branch is taken exactly when
the filename is absent or its last dot-separated segment is empty, and
otherwise the extension is that last segment. -/
theorem fileExt_dotless_filename (a : Asset) :
    (∀ f, a.fileName = some f → ('.') ∉ f.data → f ≠ "" → fileExt a = f) ∧
    (a.fileName = none → fileExt a = (if a.type = "video" then ("mp4") else ("png"))) ∧
    (∀ f, a.fileName = some f → jsSplitPop f = "" →
      fileExt a = (if a.type = "video" then ("mp4") else ("png"))) ∧
    (∀ f, a.fileName = some f → jsSplitPop f ≠ "" → fileExt a = jsSplitPop f) := by
  refine ⟨?_, ?_, ?_, ?_⟩
  · intro f hf hdot hne
    simp only [fileExt, hf, jsSplitPop_no_dot hdot]
    rw [if_neg hne]
  · intro hf
    simp only [fileExt, hf]
  · intro f hf hpop
    simp only [fileExt, hf, hpop]
    simp
  · intro f hf hne
    simp only [fileExt, hf]
    rw [if_neg hne]

/-- Claim C9 witness: the dotless filename `myfile` becomes the
extension itself. -/
theorem fileExt_dotless_filename_witness :
    fileExt ⟨some ("myfile"), ("image"), none, ("")⟩ = "myfile" :=
  (fileExt_dotless_filename _).1 ("myfile") rfl (by decide) (by decide)

/-- Claim C10: a successful save upserts exactly one record whose title
and content are the trimmed draft fields, while the in-memory draft
fields themselves are left unmodified. -/
theorem saveEntry_trims_payload (eid : Option String) (s : EditorState) (env : SaveEnv)
    (uid : String) (hu : s.userId = some uid)
    (hnb : ¬(jsTrim s.title = "" ∧ jsTrim s.content = ""))
    (he : env.upsertError = none) :
    (saveEntry eid s env).calls =
      [StoreCall.recordUpsert
        { id := eid
          user_id := uid
          title := jsTrim s.title
          content := jsTrim s.content
          media_url := s.media }] ∧
    (saveEntry eid s env).state.title = s.title ∧
    (saveEntry eid s env).state.content = s.content ∧
    (saveEntry eid s env).navigatedBack = true := by
  simp only [saveEntry, hu]
  rw [if_neg hnb]
  simp only [he]
  refine ⟨?_, ?_, ?_, ?_⟩ <;> trivial

/-- Claim C10 witness: a concrete successful save upserts the trimmed
fields and leaves the draft fields untouched. -/
theorem saveEntry_trims_payload_witness :
    (saveEntry (some ("42")) ⟨("  Groceries  "), (" milk "), some ("m"), some ("u1"), false⟩
        ⟨none⟩).calls =
      [StoreCall.recordUpsert
        { id := some ("42")
          user_id := ("u1")
          title := jsTrim ("  Groceries  ")
          content := jsTrim (" milk ")
          media_url := some ("m") }] ∧
    (saveEntry (some ("42")) ⟨("  Groceries  "), (" milk "), some ("m"), some ("u1"), false⟩
        ⟨none⟩).state.title = ("  Groceries  ") ∧
    (saveEntry (some ("42")) ⟨("  Groceries  "), (" milk "), some ("m"), some ("u1"), false⟩
        ⟨none⟩).state.content = (" milk ") ∧
    (saveEntry (some ("42")) ⟨("  Groceries  "), (" milk "), some ("m"), some ("u1"), false⟩
        ⟨none⟩).navigatedBack = true :=
  saveEntry_trims_payload (some ("42")) _ _ ("u1") rfl (by decide) rfl

end EntryEdit
